import Mathlib

/-
Verification of the halomod `halo_model.py` module (class `HaloModel`).

The Python source is shallowly embedded below.  Numeric arrays become
`List α` over an arbitrary `LinearOrderedField α` (modelling float
arithmetic as exact field arithmetic); the floating-point `np.log` and the
cubic-spline interpolant are abstract function parameters, since their
numeric content is irrelevant to the verified control flow; fallible code
returns `Except`.  The declared dependency lists of the `@cached_property`
decorators are embedded as an explicit graph on an inductive `Node` type.
-/

set_option autoImplicit false
set_option maxRecDepth 4000

universe u v

/-! ## Parameter validation: the `halo_exclusion` setter (source lines 156-165) -/

/-- The enumerated set of accepted `halo_exclusion` strings, verbatim from
the source: `available = ["None", "sphere", "ellipsoid", "ng_matched", 'schneider']`. -/
def halo_exclusion_available : List String :=
  ["None", "sphere", "ellipsoid", "ng_matched", "schneider"]

/-- The enumerated set of halo-exclusion labels as written in the spec
(`none|sphere|ellipsoid|density-matched|schneider`).  Used only to compare
the spec's wording with the source's accepted set. -/
def halo_exclusion_spec_labels : List String :=
  ["none", "sphere", "ellipsoid", "density-matched", "schneider"]

/-- The `halo_exclusion` parameter setter (source lines 156-165): `None`
normalizes to the literal string `"None"`; a value outside the accepted set
raises `ValueError` synchronously at assignment; otherwise the value is
returned unchanged.  (The source's error message also appends
`str(type(val))`; we keep only the string-valued part.) -/
def halo_exclusion_setter (val : Option String) : Except String String :=
  let v := match val with
    | none => "None"
    | some s => s
  if halo_exclusion_available.contains v then
    Except.ok v
  else
    Except.error ("halo_exclusion not acceptable: " ++ v)

/-! ## Python name resolution in `corr_gal_1h` (source lines 441-478, `USEFORT` line 27) -/

/-- The module-level toggle `USEFORT = True` (source line 27). -/
def USEFORT : Bool := true

/-- Module-level names bound in `halo_model.py` (imports at lines 4-25 plus
the module constants and the two top-level class statements). -/
def halo_model_module_scope : List String :=
  ["spline", "intg", "np", "minimize", "MassFunction", "cached_property",
   "parameter", "tools", "hod", "CMRelation", "fort", "thalo", "dblsimps",
   "deepcopy", "issubclass_", "get_model", "profiles", "bias", "u",
   "USEFORT", "HaloModel", "NGException"]

/-- A model of the Python builtin namespace, listing the builtins a lookup
in this module could fall back to.  `h` is not a Python builtin. -/
def python_builtins_scope : List String :=
  ["len", "max", "min", "abs", "str", "type", "super", "range", "print",
   "isinstance", "issubclass", "list", "dict", "float", "int", "bool"]

/-- Local names bound in the body of `corr_gal_1h` before line 467 executes
(the branch with `self.profile.has_lam` true and `USEFORT` false binds
`rho`, `lam`, `integ`, `mmin`, `mask` before evaluating
`integ2 = h.dndm*2 * h.n_cen*h.n_sat*rho`). -/
def corr_gal_1h_locals : List String :=
  ["self", "rho", "lam", "integ", "mmin", "mask"]

/-- The full set of names visible where line 467 of the source evaluates. -/
def corr_gal_1h_scope : List String :=
  corr_gal_1h_locals ++ halo_model_module_scope ++ python_builtins_scope

section Numerics

variable {α : Type u} [LinearOrderedField α]

/-- `intg.trapz(ys, dx=dx)`: trapezoidal rule on a uniform grid. -/
def trapz (ys : List α) (dx : α) : α :=
  (List.zipWith (fun a b => (a + b) / 2) ys ys.tail).sum * dx

/-- Running sums with initial accumulator `acc` (helper for `cumtrapz`). -/
def cumsum (acc : α) : List α → List α
  | [] => []
  | x :: xs => (acc + x) :: cumsum (acc + x) xs

/-- `intg.cumtrapz(ys, dx=dx)` (no `initial` argument): the cumulative
trapezoidal integral, one entry per grid interval. -/
def cumtrapz (ys : List α) (dx : α) : List α :=
  cumsum 0 (List.zipWith (fun a b => (a + b) / 2 * dx) ys ys.tail)

/-- The non-accelerated branch of `corr_gal_1h` with `self.profile.has_lam`
true (source lines 460-472).  The bindings of `integ`, `mmin` and `mask`
(lines 461-466) are faithful; evaluating line 467 then requires resolving
the name `h`, which succeeds only if `h` is in scope.  `contAfterH` stands
for whatever the branch would return if `h` did resolve (unreachable for
the source's actual scope). -/
def corr_gal_1h_lam_nofort (scope : List String) (pi mean_density delta_halo : α)
    (rs _Ms dndm nsat ncen : List α) (lam : List (List α)) (central : Bool)
    (contAfterH : List α) : Except String (List α) :=
  let _integ : List (List α) :=
    lam.map (fun row =>
      (List.zipWith (fun d (s, c) => if central then d * s ^ 2 * c else d * s ^ 2)
        dndm (nsat.zip ncen)).zipWith (· * ·) row)
  let _mmin : List α := rs.map (fun r => 4 * pi * r ^ 3 * mean_density * delta_halo / 3)
  if scope.contains "h" then
    Except.ok contAfterH
  else
    Except.error "NameError: name h is not defined"

/-- `corr_gal_1h` (source lines 441-478): dispatches on
`self.profile.has_lam` and `USEFORT`.  The accelerated branch (a Fortran
routine) and the `has_lam`-false branch are external to this file's claims
and are abstract arguments. -/
def corr_gal_1h_model (useFort hasLam : Bool) (fortResult elseResult : Except String (List α))
    (scope : List String) (pi mean_density delta_halo : α)
    (rs Ms dndm nsat ncen : List α) (lam : List (List α)) (central : Bool)
    (contAfterH : List α) : Except String (List α) :=
  if hasLam then
    if useFort then fortResult
    else corr_gal_1h_lam_nofort scope pi mean_density delta_halo rs Ms dndm nsat ncen
          lam central contAfterH
  else elseResult

/-- `corr_gal` (source lines 494-497): `self.corr_gal_1h + self.corr_gal_2h`,
a NumPy elementwise array sum over the separation grid. -/
def corr_gal (corr_gal_1h corr_gal_2h : List α) : List α :=
  List.zipWith (· + ·) corr_gal_1h corr_gal_2h

/-- `satellite_fraction` (source lines 318-323): the log-mass trapezoidal
integral of `M * dndm * n_sat` normalized by the mean galaxy density. -/
def satellite_fraction (Ms dndm n_sat : List α) (dx mean_gal_den : α) : α :=
  trapz (List.zipWith (· * ·) (List.zipWith (· * ·) Ms dndm) n_sat) dx / mean_gal_den

/-- `central_fraction` (source lines 325-327): `1 - self.satellite_fraction`. -/
def central_fraction (Ms dndm n_sat : List α) (dx mean_gal_den : α) : α :=
  1 - satellite_fraction Ms dndm n_sat dx mean_gal_den

end Numerics

/-! ## The declared dependency graph of `@cached_property` / `@parameter` -/

/-- Every name occurring as a `@parameter`, a `@cached_property`, or inside a
`@cached_property(...)` dependency list in `halo_model.py`, together with the
quantities inherited from the `hmf.MassFunction` base class that those lists
mention.  The three constructors `_power_gal_1h_ss`, `_corr_gal_1h_cs` and
`_corr_gal_1h_ss` are names that appear in dependency lists but have no
defining property in the file (apparent typos for the `_gg_` versions); they
are modelled as leaves. -/
inductive Node where
  | cut_fit | ng | bias_params | hod_params | hod_model | nonlinear
  | halo_profile | cm_relation | bias_model | halo_exclusion | cm_params
  | rmin | rmax | rnum | scale_dependent_bias
  | dlog10m | nu | delta_c | delta_halo | n | z | growth_model
  | power | nonlinear_power | k | dndm | mean_density | mean_density0
  | r | hod | M | n_sat | n_cen | n_tot | bias | cm | concentration
  | profile | n_gal | mean_gal_den | bias_effective | mass_effective
  | satellite_fraction | central_fraction | matter_power | dm_corr
  | _power_gg_1h_ss | _power_mm_1h | _corr_mm_1h | _corr_gg_1h_ss
  | _corr_gg_1h_cs | corr_gal_1h | corr_gal_2h | corr_gal
  | _power_gal_1h_ss | _corr_gal_1h_cs | _corr_gal_1h_ss
  deriving DecidableEq, Repr

/-- The declared dependency list of each node, copied verbatim from the
`@cached_property(...)` decorator arguments in the source (lines 195-497).
Parameters, inherited `MassFunction` quantities and the unresolvable names
have an empty list. -/
def deps : Node → List Node
  | .r => [.rmin, .rmax, .rnum]
  | .hod => [.hod_model, .hod_params]
  | .M => [.hod, .dlog10m]
  | .n_sat => [.hod, .M]
  | .n_cen => [.hod, .M]
  | .n_tot => [.hod, .M]
  | .bias => [.bias_model, .nu, .delta_c, .delta_halo, .n, .bias_params]
  | .cm => [.cm_relation, .nu, .z, .growth_model, .M, .cm_params]
  | .concentration => [.cm, .M]
  | .profile => [.halo_profile, .delta_halo, .cm_relation, .z, .mean_density0]
  | .n_gal => [.dndm, .n_tot]
  | .mean_gal_den => [.M, .dndm, .n_tot, .ng]
  | .bias_effective => [.M, .dndm, .n_tot, .bias]
  | .mass_effective => [.M, .dndm, .n_tot, .mean_gal_den]
  | .satellite_fraction => [.M, .dndm, .n_sat, .mean_gal_den]
  | .central_fraction => [.satellite_fraction]
  | .matter_power => [.nonlinear, .power, .nonlinear_power]
  | .dm_corr => [.matter_power, .k, .r]
  | ._power_gg_1h_ss => [.k, .M, .dndm, .n_sat, .n_cen, .hod, .profile, .mean_gal_den]
  | ._power_mm_1h => [.profile, .dndm, .M, .k, .mean_density, .delta_halo, .dlog10m]
  | ._corr_mm_1h => [.profile, .dndm, .M, .r, .mean_density, .delta_halo, .dlog10m]
  | ._corr_gg_1h_ss => [._power_gal_1h_ss, .k, .r]
  | ._corr_gg_1h_cs => [.r, .M, .dndm, .n_cen, .n_sat, .mean_density0, .delta_halo, .mean_gal_den]
  | .corr_gal_1h => [.r, .M, .dndm, .n_cen, .n_sat, .hod, .mean_density0, .delta_halo,
                     .mean_gal_den, ._corr_gal_1h_cs, ._corr_gal_1h_ss]
  | .corr_gal_2h => [.profile, .k, .M, .halo_exclusion, .scale_dependent_bias,
                     .bias, .n_tot, .dndm, .matter_power, .r, .dm_corr,
                     .mean_gal_den, .delta_halo, .mean_density0]
  | .corr_gal => [.corr_gal_1h, .corr_gal_2h]
  | _ => []

/-- One expansion step of the dependency closure. -/
def depStep (l : List Node) : List Node :=
  (l ++ l.flatMap deps).dedup

/-- The transitive dependency set of a node: every parameter or quantity
reachable from its declared dependency list.  Eight expansion steps exceed
the depth of the declared graph, so this is the full closure. -/
def transDeps (x : Node) : List Node :=
  depStep^[8] (deps x)

/-- The cache-invalidation contract.  Modelled from the spec: the cache
engine itself lives in the external `hmf._cache` package, and section 4.1 of
the spec specifies it as `invalidate(changed) marks every cached node whose
declared dependency set intersects the changed set, transitively, as stale,
without recomputing eagerly`.  Changing the single parameter `p` therefore
empties exactly the cache slots whose transitive dependency set contains
`p`, and leaves every other slot untouched. -/
def invalidateParam {V : Type v} (p : Node) (cache : Node → Option V) : Node → Option V :=
  fun x => if p ∈ transDeps x then none else cache x

/-- Pull-based recomputation (spec section 4.1): reading a node returns the
cached value when present and recomputes it otherwise. -/
def cacheGet {V : Type v} (compute : Node → V) (cache : Node → Option V) (x : Node) : V :=
  (cache x).getD (compute x)

/-! ## Claim theorems: combination, validation, dependency tracking -/

/-- Helper: elementwise reading of a NumPy-style elementwise sum. -/
theorem zipWith_add_getD {α : Type u} [LinearOrderedField α] (c1 c2 : List α) (i : ℕ)
    (h1 : i < c1.length) (h2 : i < c2.length) :
    (List.zipWith (· + ·) c1 c2).getD i 0 = c1.getD i 0 + c2.getD i 0 := by
  induction c1 generalizing c2 i with
  | nil => simp at h1
  | cons a t ih =>
    cases c2 with
    | nil => simp at h2
    | cons b t2 =>
      cases i with
      | zero => simp
      | succ m =>
        simp only [List.zipWith_cons_cons, List.getD_cons_succ]
        exact ih t2 m (by simpa using h1) (by simpa using h2)

/-- C1: for every pair of 1-halo and 2-halo correlation arrays, the combined
galaxy correlation `corr_gal` equals their exact elementwise sum at every
index of the separation grid — an identity, not an approximation. -/
theorem corr_gal_is_exact_sum {α : Type u} [LinearOrderedField α]
    (corr1h corr2h : List α) (i : ℕ) (h1 : i < corr1h.length) (h2 : i < corr2h.length) :
    (corr_gal corr1h corr2h).getD i 0 = corr1h.getD i 0 + corr2h.getD i 0 :=
  zipWith_add_getD corr1h corr2h i h1 h2

/-- Witness for C1 at a concrete grid. -/
theorem corr_gal_is_exact_sum_witness :
    (corr_gal [(1 : ℚ), 2] [10, 20]).getD 0 0
      = ([(1 : ℚ), 2]).getD 0 0 + ([(10 : ℚ), 20]).getD 0 0 :=
  corr_gal_is_exact_sum [(1 : ℚ), 2] [10, 20] 0 (by decide) (by decide)

/-- C3: updating only `halo_exclusion` leaves the cached `corr_gal_1h`,
`bias`, `concentration` and `profile` slots untouched (their transitive
declared dependency sets do not contain `halo_exclusion`) while emptying the
`corr_gal_2h` and `corr_gal` slots (their transitive dependency sets do
contain it), so the latter two are recomputed on next access. -/
theorem halo_exclusion_invalidation {V : Type v} (cache : Node → Option V) (compute : Node → V) :
    invalidateParam Node.halo_exclusion cache Node.corr_gal_1h = cache Node.corr_gal_1h ∧
    invalidateParam Node.halo_exclusion cache Node.bias = cache Node.bias ∧
    invalidateParam Node.halo_exclusion cache Node.concentration = cache Node.concentration ∧
    invalidateParam Node.halo_exclusion cache Node.profile = cache Node.profile ∧
    invalidateParam Node.halo_exclusion cache Node.corr_gal_2h = none ∧
    invalidateParam Node.halo_exclusion cache Node.corr_gal = none ∧
    cacheGet compute (invalidateParam Node.halo_exclusion cache) Node.corr_gal_2h
      = compute Node.corr_gal_2h ∧
    cacheGet compute (invalidateParam Node.halo_exclusion cache) Node.corr_gal
      = compute Node.corr_gal ∧
    Node.halo_exclusion ∉ transDeps Node.corr_gal_1h ∧
    Node.halo_exclusion ∉ transDeps Node.bias ∧
    Node.halo_exclusion ∉ transDeps Node.concentration ∧
    Node.halo_exclusion ∉ transDeps Node.profile ∧
    Node.halo_exclusion ∈ transDeps Node.corr_gal_2h ∧
    Node.halo_exclusion ∈ transDeps Node.corr_gal := by
  have h1 : Node.halo_exclusion ∉ transDeps Node.corr_gal_1h := by decide
  have h2 : Node.halo_exclusion ∉ transDeps Node.bias := by decide
  have h3 : Node.halo_exclusion ∉ transDeps Node.concentration := by decide
  have h4 : Node.halo_exclusion ∉ transDeps Node.profile := by decide
  have h5 : Node.halo_exclusion ∈ transDeps Node.corr_gal_2h := by decide
  have h6 : Node.halo_exclusion ∈ transDeps Node.corr_gal := by decide
  refine ⟨?_, ?_, ?_, ?_, ?_, ?_, ?_, ?_, h1, h2, h3, h4, h5, h6⟩ <;>
    simp [invalidateParam, cacheGet, h1, h2, h3, h4, h5, h6]

/-- C4 counterexample: the code's accepted set is not the spec's enumerated
set — the literal `"ng_matched"` is accepted although it is not among the
spec labels, and the spec label `"density-matched"` is rejected with a
validation error. -/
theorem halo_exclusion_spec_set_counterexample :
    halo_exclusion_setter (some "ng_matched") = Except.ok "ng_matched" ∧
    "ng_matched" ∉ halo_exclusion_spec_labels ∧
    halo_exclusion_setter (some "density-matched")
      = Except.error "halo_exclusion not acceptable: density-matched" ∧
    "density-matched" ∈ halo_exclusion_spec_labels := by
  exact ⟨rfl, by decide, rfl, by decide⟩

/-- C4 (amended): at assignment time `None` normalizes to the literal string
`"None"`; the set of accepted values is exactly
`{"None", "sphere", "ellipsoid", "ng_matched", "schneider"}`; every other
value raises a descriptive validation error synchronously in the setter. -/
theorem halo_exclusion_setter_spec :
    halo_exclusion_setter none = Except.ok "None" ∧
    ∀ s : String, halo_exclusion_setter (some s) =
      if halo_exclusion_available.contains s then Except.ok s
      else Except.error ("halo_exclusion not acceptable: " ++ s) :=
  ⟨rfl, fun _ => rfl⟩

/-- C9: with the accelerated-kernel toggle off and an exact self-convolution
available, `corr_gal_1h` evaluates a reference to the name `h`, which is
bound in no enclosing scope, so the branch raises a name-resolution error on
every input and never returns a value. -/
theorem corr_gal_1h_nofort_lam_always_name_error {α : Type u} [LinearOrderedField α]
    (fortResult elseResult : Except String (List α)) (pi mean_density delta_halo : α)
    (rs Ms dndm nsat ncen : List α) (lam : List (List α)) (central : Bool)
    (contAfterH : List α) :
    corr_gal_1h_model false true fortResult elseResult corr_gal_1h_scope
        pi mean_density delta_halo rs Ms dndm nsat ncen lam central contAfterH
      = Except.error "NameError: name h is not defined" ∧
    "h" ∉ corr_gal_1h_scope := by
  have hs : "h" ∉ corr_gal_1h_scope := by decide
  exact ⟨by simp [corr_gal_1h_model, corr_gal_1h_lam_nofort, hs], hs⟩

/-- C10: `central_fraction` is exactly `1 - satellite_fraction` (so the two
fractions sum to one on every input), and its declared dependency list is
exactly `[satellite_fraction]`, so it is invalidated exactly when
`satellite_fraction` is. -/
theorem central_fraction_complement {α : Type u} [LinearOrderedField α]
    (Ms dndm n_sat : List α) (dx mean_gal_den : α) :
    central_fraction Ms dndm n_sat dx mean_gal_den
      = 1 - satellite_fraction Ms dndm n_sat dx mean_gal_den ∧
    central_fraction Ms dndm n_sat dx mean_gal_den
      + satellite_fraction Ms dndm n_sat dx mean_gal_den = 1 ∧
    deps Node.central_fraction = [Node.satellite_fraction] :=
  ⟨rfl, by simp [central_fraction], rfl⟩

/-! ## The minimum-mass solver `_find_m_min` (source lines 499-541) -/

/-- The errors `_find_m_min` can raise: the distinguished feasibility error
`NGException` (source lines 515, 529, 544-545), whose message carries the
maximum achievable density, and a plain `IndexError` from an out-of-range
NumPy index. -/
inductive SolverErr (α : Type u) where
  | NGException (value : α)
  | IndexError
  deriving DecidableEq

/-- The fields of a `scipy.optimize.minimize` result that the source reads
or could read: the point estimate `x` and the convergence flag `success`. -/
structure OptimizeResult (α : Type u) where
  x : List α
  success : Bool

/-- A Python slice `l[a:b]` with non-negative bounds (clamped, half-open). -/
def pySlice {β : Type u} (l : List β) (a b : ℕ) : List β :=
  (l.drop a).take (b - a)

section Solver

variable {α : Type u} [LinearOrderedField α]

/-- Composite Simpson rule over an odd-length (even-interval) list. -/
def simpsOdd (ys : List α) (dx : α) : α :=
  match ys with
  | a :: b :: c :: rest => (a + 4 * b + c) * dx / 3 + simpsOdd (c :: rest) dx
  | _ => 0

/-- `intg.simps(ys, dx=dx)`: Simpson integration on a uniform grid; with an
even number of samples the default `even='avg'` averages Simpson-on-front
plus trapezoid-on-last-interval with trapezoid-on-first plus
Simpson-on-rest. -/
def simps (ys : List α) (dx : α) : α :=
  if ys.length ≤ 2 then trapz ys dx
  else if ys.length % 2 = 1 then simpsOdd ys dx
  else ((simpsOdd ys.dropLast dx + trapz (ys.drop (ys.length - 2)) dx)
        + (trapz (ys.take 2) dx + simpsOdd ys.tail dx)) / 2

/-- `_find_m_min(ng)` (source lines 499-541), numeric view.  The working
clone's refined mass grid is `Ms`; `integrandOf m` is the clone's array
`c.M * c.dndm * c.n_tot` after `c.update(hod_params={"M_min": m})` (the
initial computation at line 507-509 uses the floor `M_min = 8`); `log`
models `np.log`; `splineEval xs ys t` models
`InterpolatedUnivariateSpline(xs, ys, k=3)(t)`; `minimize f x0` models
`scipy.optimize.minimize(f, x0, tol=1e-3, method="Nelder-Mead",
options={"maxiter": 200})`.  `sharp_cut` is `self.hod.sharp_cut`. -/
def find_m_min (sharp_cut : Bool) (log : α → α) (Ms : List α) (integrandOf : α → List α)
    (ng : α) (splineEval : List α → List α → α → α)
    (minimize : (α → α) → α → OptimizeResult α) : Except (SolverErr α) α :=
  let dx := log (Ms.getD 1 0 / Ms.getD 0 0)
  let integrand := integrandOf 8
  if sharp_cut then
    let integral := cumtrapz integrand.reverse dx
    match integral.getLast? with
    | none => Except.error SolverErr.IndexError
    | some last =>
      if last < ng then Except.error (SolverErr.NGException last)
      else
        match integral.findIdx? (fun x => decide (ng < x)) with
        | none => Except.error SolverErr.IndexError
        | some ind =>
          let m := pySlice Ms.reverse.tail (ind - 4) (min (ind + 4) Ms.length)
          let integral2 := pySlice integral (ind - 4) (min (ind + 4) Ms.length)
          Except.ok (splineEval (integral2.map log) (m.map log) (log ng) / log 10)
  else
    let integral := simps integrand dx
    if integral < ng then Except.error (SolverErr.NGException integral)
    else
      Except.ok ((minimize (fun mmin => |simps (integrandOf mmin) dx - ng|) 12).x.headD 0)

/-- Modelled from the spec: the sharp-cutoff branch as the spec's words
describe it, with a `symmetric local window of up to 4 points on each side
of that index` — indices `ind-4 .. ind+4` inclusive, that is the slice
`[ind-4 : ind+5]` — in place of the source's half-open slice
`[ind-4 : ind+4]`.  Identical to the sharp branch of `find_m_min`
otherwise; used only to compare the spec's window with the source's. -/
def find_m_min_sharp_specwindow (log : α → α) (Ms : List α) (integrandOf : α → List α)
    (ng : α) (splineEval : List α → List α → α → α) : Except (SolverErr α) α :=
  let dx := log (Ms.getD 1 0 / Ms.getD 0 0)
  let integrand := integrandOf 8
  let integral := cumtrapz integrand.reverse dx
  match integral.getLast? with
  | none => Except.error SolverErr.IndexError
  | some last =>
    if last < ng then Except.error (SolverErr.NGException last)
    else
      match integral.findIdx? (fun x => decide (ng < x)) with
      | none => Except.error SolverErr.IndexError
      | some ind =>
        let m := pySlice Ms.reverse.tail (ind - 4) (min (ind + 4 + 1) Ms.length)
        let integral2 := pySlice integral (ind - 4) (min (ind + 4 + 1) Ms.length)
        Except.ok (splineEval (integral2.map log) (m.map log) (log ng) / log 10)

end Solver

/-! ## Solver lemmas and claim theorems -/

/-- Helper: a nonempty list's `getLast?` is its `getLastD`. -/
theorem getLast?_eq_some_getLastD {β : Type u} (l : List β) (d : β) (h : l ≠ []) :
    l.getLast? = some (l.getLastD d) := by
  cases hl : l.getLast? with
  | none => exact absurd (List.getLast?_eq_none_iff.mp hl) h
  | some a => simp [List.getLastD_eq_getLast?, hl]

/-- Helper: the last running sum is the accumulator plus the total sum. -/
theorem cumsum_getLast? {α : Type u} [LinearOrderedField α] (acc : α) (l : List α)
    (h : l ≠ []) : (cumsum acc l).getLast? = some (acc + l.sum) := by
  induction l generalizing acc with
  | nil => exact absurd rfl h
  | cons x t ih =>
    cases t with
    | nil => simp [cumsum]
    | cons y t2 =>
      have hcc : cumsum acc (x :: y :: t2) = (acc + x) :: cumsum (acc + x) (y :: t2) := rfl
      have hcc2 : cumsum (acc + x) (y :: t2) = (acc + x + y) :: cumsum (acc + x + y) t2 := rfl
      rw [hcc, hcc2, List.getLast?_cons_cons, ← hcc2, ih (acc + x) (by simp)]
      simp [add_assoc]

/-- Helper: running sums of non-negative terms are bounded by the total. -/
theorem mem_cumsum_le_sum {α : Type u} [LinearOrderedField α] (l : List α)
    (hl : ∀ x ∈ l, 0 ≤ x) (acc : α) : ∀ y ∈ cumsum acc l, y ≤ acc + l.sum := by
  induction l generalizing acc with
  | nil => intro y hy; simp [cumsum] at hy
  | cons x t ih =>
    intro y hy
    have hts : 0 ≤ t.sum := List.sum_nonneg (fun z hz => hl z (List.mem_cons_of_mem _ hz))
    rw [show cumsum acc (x :: t) = (acc + x) :: cumsum (acc + x) t from rfl] at hy
    rcases List.mem_cons.mp hy with hh | hh
    · subst hh; simp [List.sum_cons]; linarith
    · have := ih (fun z hz => hl z (List.mem_cons_of_mem _ hz)) (acc + x) y hh
      simp only [List.sum_cons]
      linarith

/-- Helper: the trapezoid pieces of non-negative samples are non-negative. -/
theorem zip_avg_nonneg {α : Type u} [LinearOrderedField α] (dx : α) (hdx : 0 ≤ dx) :
    ∀ l1 l2 : List α, (∀ a ∈ l1, 0 ≤ a) → (∀ b ∈ l2, 0 ≤ b) →
      ∀ x ∈ List.zipWith (fun a b => (a + b) / 2 * dx) l1 l2, 0 ≤ x := by
  intro l1
  induction l1 with
  | nil => intro l2 _ _ x hx; simp at hx
  | cons a t ih =>
    intro l2 h1 h2 x hx
    cases l2 with
    | nil => simp at hx
    | cons b t2 =>
      rw [List.zipWith_cons_cons] at hx
      rcases List.mem_cons.mp hx with hh | hh
      · subst hh
        exact mul_nonneg (div_nonneg (add_nonneg (h1 a (by simp)) (h2 b (by simp)))
          (by norm_num)) hdx
      · exact ih t2 (fun z hz => h1 z (List.mem_cons_of_mem _ hz))
          (fun z hz => h2 z (List.mem_cons_of_mem _ hz)) x hh

/-- Helper: the sharp branch raises `NGException last` whenever the last
cumulative value is below `ng`. -/
theorem find_m_min_sharp_error_eval {α : Type u} [LinearOrderedField α]
    (log : α → α) (Ms : List α) (integrandOf : α → List α) (ng : α)
    (splineEval : List α → List α → α → α) (minimize : (α → α) → α → OptimizeResult α)
    (v : α)
    (hv : (cumtrapz (integrandOf 8).reverse (log (Ms.getD 1 0 / Ms.getD 0 0))).getLast? = some v)
    (hlt : v < ng) :
    find_m_min true log Ms integrandOf ng splineEval minimize
      = Except.error (SolverErr.NGException v) := by
  simp only [List.getD_eq_getElem?_getD] at hv
  simp [find_m_min, hv, hlt]

/-- C2: in the sharp-cutoff branch, for a target density `ng` strictly above
every value of the cumulative integral (hence above its maximum), the solver
raises the distinguished `NGException` carrying the last cumulative value,
which is greater than or equal to every cumulative value — the maximum
achievable density — and returns no mass.  The hypotheses state that the
integrand `M*dndm*n_tot` is non-negative and the log-mass step is
non-negative, as for any physical mass grid. -/
theorem find_m_min_infeasible_raises {α : Type u} [LinearOrderedField α]
    (log : α → α) (Ms : List α) (integrandOf : α → List α) (ng : α)
    (splineEval : List α → List α → α → α) (minimize : (α → α) → α → OptimizeResult α)
    (hnn : ∀ x ∈ integrandOf 8, 0 ≤ x)
    (hdx : 0 ≤ log (Ms.getD 1 0 / Ms.getD 0 0))
    (hne : cumtrapz (integrandOf 8).reverse (log (Ms.getD 1 0 / Ms.getD 0 0)) ≠ [])
    (hmax : ∀ x ∈ cumtrapz (integrandOf 8).reverse (log (Ms.getD 1 0 / Ms.getD 0 0)), x < ng) :
    find_m_min true log Ms integrandOf ng splineEval minimize
      = Except.error (SolverErr.NGException
          ((cumtrapz (integrandOf 8).reverse (log (Ms.getD 1 0 / Ms.getD 0 0))).getLastD 0)) ∧
    ∀ x ∈ cumtrapz (integrandOf 8).reverse (log (Ms.getD 1 0 / Ms.getD 0 0)),
      x ≤ (cumtrapz (integrandOf 8).reverse (log (Ms.getD 1 0 / Ms.getD 0 0))).getLastD 0 := by
  have hlast? := getLast?_eq_some_getLastD _ 0 hne
  have hmem : (cumtrapz (integrandOf 8).reverse (log (Ms.getD 1 0 / Ms.getD 0 0))).getLastD 0
      ∈ cumtrapz (integrandOf 8).reverse (log (Ms.getD 1 0 / Ms.getD 0 0)) := by
    rw [List.getLast?_eq_getLast _ hne] at hlast?
    exact (Option.some.inj hlast?) ▸ List.getLast_mem hne
  refine ⟨find_m_min_sharp_error_eval log Ms integrandOf ng splineEval minimize _ hlast?
      (hmax _ hmem), ?_⟩
  intro x hx
  have hys : ∀ a ∈ (integrandOf 8).reverse, 0 ≤ a := fun a ha => hnn a (List.mem_reverse.mp ha)
  have hp : ∀ p ∈ List.zipWith
      (fun a b => (a + b) / 2 * (log (Ms.getD 1 0 / Ms.getD 0 0)))
      (integrandOf 8).reverse (integrandOf 8).reverse.tail, 0 ≤ p :=
    zip_avg_nonneg _ hdx _ _ hys (fun b hb => hys b (List.mem_of_mem_tail hb))
  have hle : x ≤ 0 + (List.zipWith
      (fun a b => (a + b) / 2 * (log (Ms.getD 1 0 / Ms.getD 0 0)))
      (integrandOf 8).reverse (integrandOf 8).reverse.tail).sum :=
    mem_cumsum_le_sum _ hp 0 x hx
  have hpne : List.zipWith
      (fun a b => (a + b) / 2 * (log (Ms.getD 1 0 / Ms.getD 0 0)))
      (integrandOf 8).reverse (integrandOf 8).reverse.tail ≠ [] := by
    intro hemp
    exact hne (by rw [cumtrapz, hemp]; rfl)
  have hgl := cumsum_getLast? (0 : α) _ hpne
  have hfin : (cumtrapz (integrandOf 8).reverse (log (Ms.getD 1 0 / Ms.getD 0 0))).getLastD 0
      = 0 + (List.zipWith
        (fun a b => (a + b) / 2 * (log (Ms.getD 1 0 / Ms.getD 0 0)))
        (integrandOf 8).reverse (integrandOf 8).reverse.tail).sum :=
    Option.some.inj (hlast?.symm.trans hgl)
  rw [hfin]
  exact hle

/-- Witness for C2 at a concrete infeasible input. -/
theorem find_m_min_infeasible_raises_witness :
    find_m_min true (fun _ : ℚ => 1) [1, 2, 4] (fun _ => [1, 1, 1]) 5
        (fun _ _ _ => 0) (fun _ _ => ⟨[0], true⟩)
      = Except.error (SolverErr.NGException ((cumtrapz [(1 : ℚ), 1, 1] 1).getLastD 0)) ∧
    ∀ x ∈ cumtrapz [(1 : ℚ), 1, 1] 1, x ≤ (cumtrapz [(1 : ℚ), 1, 1] 1).getLastD 0 :=
  find_m_min_infeasible_raises (fun _ : ℚ => 1) [1, 2, 4] (fun _ => [1, 1, 1]) 5
    (fun _ _ _ => 0) (fun _ _ => ⟨[0], true⟩)
    (by norm_num) (by norm_num)
    (by simp [cumtrapz, cumsum]) (by norm_num [cumtrapz, cumsum])

/-- C5 (amended): in the feasible sharp-cutoff branch the solver locates the
first index `ind` (over decreasing mass) where the cumulative integral
exceeds `ng`, restricts both arrays to the half-open local window
`[ind-4, ind+4)` (clamped) — up to 4 points below the located index and up
to 3 points above it, not a symmetric window — fits the cubic interpolant of
`log(mass)` against `log(cumulative integral)` on that window, and returns
its value at `log(ng)` divided by `log(10)`. -/
theorem find_m_min_sharp_window {α : Type u} [LinearOrderedField α]
    (log : α → α) (Ms : List α) (integrandOf : α → List α)
    (ng : α) (splineEval : List α → List α → α → α)
    (minimize : (α → α) → α → OptimizeResult α) (ind : ℕ)
    (hne : cumtrapz (integrandOf 8).reverse (log (Ms.getD 1 0 / Ms.getD 0 0)) ≠ [])
    (hge : ng ≤ (cumtrapz (integrandOf 8).reverse (log (Ms.getD 1 0 / Ms.getD 0 0))).getLastD 0)
    (hind : (cumtrapz (integrandOf 8).reverse (log (Ms.getD 1 0 / Ms.getD 0 0))).findIdx?
        (fun x => decide (ng < x)) = some ind) :
    find_m_min true log Ms integrandOf ng splineEval minimize
      = Except.ok (splineEval
          ((pySlice (cumtrapz (integrandOf 8).reverse (log (Ms.getD 1 0 / Ms.getD 0 0)))
              (ind - 4) (min (ind + 4) Ms.length)).map log)
          ((pySlice Ms.reverse.tail (ind - 4) (min (ind + 4) Ms.length)).map log)
          (log ng) / log 10) := by
  have hlast? := getLast?_eq_some_getLastD _ 0 hne
  have hnlt := not_lt.mpr hge
  simp only [find_m_min, if_true]
  split
  · rename_i heq
    rw [hlast?] at heq
    exact absurd heq (Option.some_ne_none _)
  · rename_i last heq
    have hlast : last = (cumtrapz (integrandOf 8).reverse
        (log (Ms.getD 1 0 / Ms.getD 0 0))).getLastD 0 :=
      Option.some.inj (heq.symm.trans hlast?)
    rw [if_neg (hlast ▸ hnlt)]
    split
    · rename_i heq2
      rw [hind] at heq2
      exact absurd heq2 (Option.some_ne_none _)
    · rename_i ind2 heq2
      rw [Option.some.inj ((hind.symm.trans heq2))]

/-- Witness for C5 at a concrete feasible input with located index 5. -/
theorem find_m_min_sharp_window_witness :
    find_m_min true (fun _ : ℚ => 2) [1, 2, 3, 4, 5, 6, 7, 8, 9, 10, 11, 12, 13, 14, 15]
        (fun _ => [1, 1, 1, 1, 1, 1, 1, 1, 1, 1, 1, 1, 1, 1, 1]) 11
        (fun xs _ _ => (xs.length : ℚ)) (fun _ _ => ⟨[0], true⟩)
      = Except.ok ((fun xs _ _ => (xs.length : ℚ))
          ((pySlice (cumtrapz [(1 : ℚ), 1, 1, 1, 1, 1, 1, 1, 1, 1, 1, 1, 1, 1, 1] 2)
              (5 - 4) (min (5 + 4) 15)).map (fun _ => 2))
          ((pySlice ([(1 : ℚ), 2, 3, 4, 5, 6, 7, 8, 9, 10, 11, 12, 13, 14, 15]).reverse.tail
              (5 - 4) (min (5 + 4) 15)).map (fun _ => 2))
          2 / 2) :=
  find_m_min_sharp_window (fun _ : ℚ => 2) [1, 2, 3, 4, 5, 6, 7, 8, 9, 10, 11, 12, 13, 14, 15]
    (fun _ => [1, 1, 1, 1, 1, 1, 1, 1, 1, 1, 1, 1, 1, 1, 1]) 11
    (fun xs _ _ => (xs.length : ℚ)) (fun _ _ => ⟨[0], true⟩) 5
    (by simp [cumtrapz, cumsum])
    (by norm_num [cumtrapz, cumsum])
    (by norm_num [cumtrapz, cumsum, List.findIdx?_cons])

/-- C5 counterexample: the source's window is the half-open slice
`[ind-4 : ind+4]`, not a symmetric window of up to 4 points on each side of
the located index.  On a 15-point grid with the threshold crossed at index
5, the source's interpolation window has 8 points while the spec's
symmetric window (`find_m_min_sharp_specwindow`, indices `ind-4 .. ind+4`
inclusive) would have 9; probing the window length through the abstract
interpolant distinguishes the two results. -/
theorem find_m_min_window_not_symmetric :
    find_m_min true (fun _ : ℚ => 2) [1, 2, 3, 4, 5, 6, 7, 8, 9, 10, 11, 12, 13, 14, 15]
        (fun _ => [1, 1, 1, 1, 1, 1, 1, 1, 1, 1, 1, 1, 1, 1, 1]) 11
        (fun xs _ _ => (xs.length : ℚ)) (fun _ _ => ⟨[0], true⟩)
      = Except.ok (8 / 2) ∧
    find_m_min_sharp_specwindow (fun _ : ℚ => 2) [1, 2, 3, 4, 5, 6, 7, 8, 9, 10, 11, 12, 13, 14, 15]
        (fun _ => [1, 1, 1, 1, 1, 1, 1, 1, 1, 1, 1, 1, 1, 1, 1]) 11
        (fun xs _ _ => (xs.length : ℚ))
      = Except.ok (9 / 2) ∧
    (8 : ℚ) / 2 ≠ 9 / 2 := by
  refine ⟨?_, ?_, by norm_num⟩
  · norm_num [find_m_min, cumtrapz, cumsum, pySlice, List.findIdx?_cons]
  · norm_num [find_m_min_sharp_specwindow, cumtrapz, cumsum, pySlice, List.findIdx?_cons]

/-- C8 (amended): in the feasible smooth branch the solver returns
`res.x[0]` from the derivative-free minimizer unconditionally — it never
inspects the convergence flag, so iteration-cap exhaustion is silently
accepted rather than surfaced as a distinguished condition. -/
theorem find_m_min_smooth_returns_unchecked {α : Type u} [LinearOrderedField α]
    (log : α → α) (Ms : List α) (integrandOf : α → List α) (ng : α)
    (splineEval : List α → List α → α → α) (minimize : (α → α) → α → OptimizeResult α)
    (hfeas : ¬ simps (integrandOf 8) (log (Ms.getD 1 0 / Ms.getD 0 0)) < ng) :
    find_m_min false log Ms integrandOf ng splineEval minimize
      = Except.ok ((minimize (fun mmin =>
          |simps (integrandOf mmin) (log (Ms.getD 1 0 / Ms.getD 0 0)) - ng|) 12).x.headD 0) := by
  simp only [find_m_min, Bool.false_eq_true, if_false]
  rw [if_neg hfeas]

/-- Witness for C8 at a concrete feasible input. -/
theorem find_m_min_smooth_returns_unchecked_witness :
    find_m_min false (fun _ : ℚ => 1) [1, 2, 3] (fun _ => [1, 1, 1]) 0
        (fun _ _ _ => 0) (fun _ _ => ⟨[7], true⟩)
      = Except.ok 7 :=
  find_m_min_smooth_returns_unchecked (fun _ : ℚ => 1) [1, 2, 3] (fun _ => [1, 1, 1]) 0
    (fun _ _ _ => 0) (fun _ _ => ⟨[7], true⟩)
    (by norm_num [simps, simpsOdd, trapz])

/-- C8 counterexample: with a minimizer reporting non-convergence
(`success = false`, as after exhausting `maxiter`), the solver still returns
`Except.ok` with the unconverged estimate and raises nothing. -/
theorem find_m_min_smooth_silently_accepts :
    find_m_min false (fun _ : ℚ => 1) [1, 2, 3] (fun _ => [0, 0, 0]) 0
        (fun _ _ _ => 0) (fun _ _ => ⟨[11], false⟩)
      = Except.ok 11 ∧
    (OptimizeResult.mk [(11 : ℚ)] false).success = false := by
  refine ⟨?_, rfl⟩
  norm_num [find_m_min, simps, simpsOdd, trapz]

/-! ## The central-satellite 1-halo mask (source lines 413-436) -/

/-- The mass-exclusion threshold of the non-accelerated branch of
`_corr_gg_1h_cs` (source line 430): `mmin = 4*np.pi * self.r**3 *
self.mean_density * self.delta_halo/3`, one value per separation — note the
full separation `r`, not `r/2`. -/
def corr_gg_1h_cs_mmin {α : Type u} [LinearOrderedField α]
    (pi mean_density delta_halo : α) (rs : List α) : List α :=
  rs.map (fun r => 4 * pi * r ^ 3 * mean_density * delta_halo / 3)

/-- Modelled from the spec: the mass-exclusion threshold as the spec words
it for the central-satellite term — `the mass whose virial radius equals
half the current separation r`, that is `4π(r/2)³·mean_density·delta_halo/3`
(the halving the source applies in `_corr_mm_1h` at line 399 but not in
`_corr_gg_1h_cs`).  Used only to compare the spec's mask with the source's. -/
def corr_gg_1h_cs_mmin_spec {α : Type u} [LinearOrderedField α]
    (pi mean_density delta_halo : α) (rs : List α) : List α :=
  rs.map (fun r => 4 * pi * (r / 2) ^ 3 * mean_density * delta_halo / 3)

/-- The masked integrand of the non-accelerated branch of `_corr_gg_1h_cs`
(source lines 430-433): entry `[i][j]` (separation `i`, mass `j`) is
`dndm*2*n_cen*n_sat*rho*M` zeroed out where `M < mmin(r)`. -/
def corr_gg_1h_cs_integ {α : Type u} [LinearOrderedField α]
    (pi mean_density delta_halo : α) (rs Ms dndm ncen nsat : List α)
    (rho : List (List α)) : List (List α) :=
  (List.range rs.length).map fun i =>
    (List.range Ms.length).map fun j =>
      if Ms.getD j 0 < (corr_gg_1h_cs_mmin pi mean_density delta_halo rs).getD i 0 then 0
      else dndm.getD j 0 * 2 * ncen.getD j 0 * nsat.getD j 0 * ((rho.getD i []).getD j 0)
        * Ms.getD j 0

/-- `_corr_gg_1h_cs`, non-accelerated branch (source lines 428-436): the
log-mass trapezoidal integral of the masked integrand per separation,
normalized by the squared mean galaxy density. -/
def _corr_gg_1h_cs {α : Type u} [LinearOrderedField α] (log : α → α)
    (pi mean_density delta_halo dlog10m mean_gal_den : α)
    (rs Ms dndm ncen nsat : List α) (rho : List (List α)) : List α :=
  ((corr_gg_1h_cs_integ pi mean_density delta_halo rs Ms dndm ncen nsat rho).map
    (fun row => trapz row (dlog10m * log 10))).map (fun c => c / mean_gal_den ^ 2)

/-- C7 (amended): in the central-satellite 1-halo term the integrand entry
at separation `i` and mass `j` is forced to zero exactly when
`M < 4π·r³·mean_density·delta_halo/3` — the mass whose virial radius equals
the full current separation `r`, not half of it — and otherwise equals
`dndm·2·n_cen·n_sat·rho·M`, for every separation on the grid. -/
theorem corr_gg_1h_cs_mask_full_radius {α : Type u} [LinearOrderedField α]
    (pi mean_density delta_halo : α) (rs Ms dndm ncen nsat : List α) (rho : List (List α))
    (i j : ℕ) (hi : i < rs.length) (hj : j < Ms.length) :
    ((corr_gg_1h_cs_integ pi mean_density delta_halo rs Ms dndm ncen nsat rho).getD i []).getD j 0
      = (if Ms.getD j 0 < (corr_gg_1h_cs_mmin pi mean_density delta_halo rs).getD i 0 then 0
         else dndm.getD j 0 * 2 * ncen.getD j 0 * nsat.getD j 0 * ((rho.getD i []).getD j 0)
           * Ms.getD j 0) ∧
    (corr_gg_1h_cs_mmin pi mean_density delta_halo rs).getD i 0
      = 4 * pi * (rs.getD i 0) ^ 3 * mean_density * delta_halo / 3 := by
  constructor
  · simp [corr_gg_1h_cs_integ, List.getD_eq_getElem?_getD, List.getElem?_map,
      List.getElem?_range, hi, hj]
  · simp [corr_gg_1h_cs_mmin, List.getD_eq_getElem?_getD, List.getElem?_map, hi,
      List.getElem?_eq_getElem hi]

/-- Witness for C7 at a concrete one-point grid. -/
theorem corr_gg_1h_cs_mask_full_radius_witness :
    ((corr_gg_1h_cs_integ (3 : ℚ) 1 1 [1] [2] [1] [1] [1] [[1]]).getD 0 []).getD 0 0
      = (if ([(2 : ℚ)]).getD 0 0 < (corr_gg_1h_cs_mmin (3 : ℚ) 1 1 [1]).getD 0 0 then 0
         else ([(1 : ℚ)]).getD 0 0 * 2 * ([(1 : ℚ)]).getD 0 0 * ([(1 : ℚ)]).getD 0 0
           * (([[(1 : ℚ)]]).getD 0 []).getD 0 0 * ([(2 : ℚ)]).getD 0 0) ∧
    (corr_gg_1h_cs_mmin (3 : ℚ) 1 1 [1]).getD 0 0
      = 4 * 3 * (([(1 : ℚ)]).getD 0 0) ^ 3 * 1 * 1 / 3 :=
  corr_gg_1h_cs_mask_full_radius 3 1 1 [1] [2] [1] [1] [1] [[1]] 0 0
    (by decide) (by decide)

/-- C7 counterexample: with abstract `pi = 3` and unit density, overdensity,
separation and occupation arrays, the mass `M = 2` entry is forced to zero
by the source's mask although `M` is not below the spec's half-separation
threshold `4π(r/2)³·mean_density·delta_halo/3` — the claim's `exactly for
M < 4π(r/2)³...` characterization is false on the code, whose threshold
uses the full separation and is eight times larger. -/
theorem corr_gg_1h_cs_mask_not_half_radius :
    corr_gg_1h_cs_integ (3 : ℚ) 1 1 [1] [2] [1] [1] [1] [[1]] = [[0]] ∧
    ¬ (([(2 : ℚ)]).getD 0 0 < (corr_gg_1h_cs_mmin_spec (3 : ℚ) 1 1 [1]).getD 0 0) := by
  constructor
  · norm_num [corr_gg_1h_cs_integ, corr_gg_1h_cs_mmin, List.range_succ]
  · norm_num [corr_gg_1h_cs_mmin_spec]

/-! ## Object/heap view of `_find_m_min` (source lines 499-541)

The aliasing content of the solver — `c = deepcopy(self)` producing a fully
independent working copy — is modelled with an explicit heap of mutable
caches: each object holds its parameters by value plus a reference into the
heap; `deepcopy` copies the cache contents to a fresh reference.  The
source's sequence of effects is: read `self.power` (populating the caller's
cache if absent, line 505), deep-copy (line 506), mutate and read only the
clone (lines 507-509, the branch bodies, and every trial `M_min` evaluation
of the smooth branch's objective), and read `self.hod.sharp_cut` (line 511,
again a cache fill on the caller). -/

/-- A memo cache: an association list from quantity names to values. -/
abbrev CacheMap (V : Type v) := List (String × V)

/-- A `HaloModel` instance: parameters held by value plus a reference to its
mutable cache on the heap. -/
structure Obj (P : Type u) (V : Type v) where
  params : P
  cacheRef : ℕ

/-- The heap of caches; `next` is the next fresh reference. -/
structure Heap (V : Type v) where
  store : ℕ → CacheMap V
  next : ℕ

/-- First binding of a key in a cache. -/
def lookupKey {V : Type v} (m : CacheMap V) (k : String) : Option V :=
  (m.find? (fun kv => kv.1 == k)).map (·.2)

/-- A `cached_property` read: fills the slot if absent, else leaves the
cache unchanged. -/
def cacheFill {V : Type v} (k : String) (v : V) (m : CacheMap V) : CacheMap V :=
  if (lookupKey m k).isSome then m else (k, v) :: m

/-- Overwrite one heap cell. -/
def heapWrite {V : Type v} (h : Heap V) (r : ℕ) (m : CacheMap V) : Heap V :=
  ⟨fun i => if i = r then m else h.store i, h.next⟩

/-- Reading a cached property of the object at reference `r`. -/
def accessProp {V : Type v} (h : Heap V) (r : ℕ) (k : String) (v : V) : Heap V :=
  heapWrite h r (cacheFill k v (h.store r))

/-- `copy.deepcopy`: the clone receives a fresh reference holding a copy of
the original's cache; the original's reference is untouched. -/
def deepcopy {P : Type u} {V : Type v} (h : Heap V) (o : Obj P V) : Heap V × Obj P V :=
  (⟨fun i => if i = h.next then h.store o.cacheRef else h.store i, h.next + 1⟩,
   { o with cacheRef := h.next })

/-- The operations the solver performs on its working copy: `c.update(...)`
(cache invalidation of the named quantities) and cached-property reads. -/
inductive CloneOp (V : Type v) where
  | update (invalidated : List String)
  | access (k : String) (v : V)

/-- Apply one clone operation at reference `r`. -/
def applyCloneOp {V : Type v} (r : ℕ) (h : Heap V) : CloneOp V → Heap V
  | .update inv => heapWrite h r ((h.store r).filter (fun kv => !(inv.contains kv.1)))
  | .access k v => accessProp h r k v

/-- Run a sequence of clone operations at reference `r`. -/
def runCloneOps {V : Type v} (h : Heap V) (r : ℕ) (ops : List (CloneOp V)) : Heap V :=
  ops.foldl (applyCloneOp r) h

/-- `_find_m_min`, effect view: read `self.power`; deep-copy; run the
clone's initial update and integrand reads (`ops1`); read `self.hod`; run
the branch work on the clone (`ops2`, covering every trial `M_min` of the
smooth branch); return with `self` unchanged. -/
def find_m_min_state {P : Type u} {V : Type v} (h : Heap V) (self : Obj P V)
    (powerVal hodVal : V) (ops1 ops2 : List (CloneOp V)) : Heap V × Obj P V :=
  let h1 := accessProp h self.cacheRef "power" powerVal
  let hc := deepcopy h1 self
  let h3 := runCloneOps hc.1 hc.2.cacheRef ops1
  let h4 := accessProp h3 self.cacheRef "hod" hodVal
  let h5 := runCloneOps h4 hc.2.cacheRef ops2
  (h5, self)

/-- Helper: writing another cell leaves a cell unchanged. -/
theorem heapWrite_store_ne {V : Type v} (h : Heap V) (r : ℕ) (m : CacheMap V) (s : ℕ)
    (hne : s ≠ r) : (heapWrite h r m).store s = h.store s := by
  simp [heapWrite, hne]

/-- Helper: a property read fills the object's own cache. -/
theorem accessProp_store_self {V : Type v} (h : Heap V) (r : ℕ) (k : String) (v : V) :
    (accessProp h r k v).store r = cacheFill k v (h.store r) := by
  simp [accessProp, heapWrite]

/-- Helper: a clone operation touches only the clone's cell. -/
theorem applyCloneOp_store_ne {V : Type v} (r : ℕ) (h : Heap V) (op : CloneOp V) (s : ℕ)
    (hne : s ≠ r) : (applyCloneOp r h op).store s = h.store s := by
  cases op <;> simp [applyCloneOp, accessProp, heapWrite, hne]

/-- Helper: a sequence of clone operations touches only the clone's cell. -/
theorem runCloneOps_store_ne {V : Type v} (ops : List (CloneOp V)) (r s : ℕ) (hne : s ≠ r) :
    ∀ h : Heap V, (runCloneOps h r ops).store s = h.store s := by
  induction ops with
  | nil => intro h; rfl
  | cons op t ih =>
    intro h
    rw [show runCloneOps h r (op :: t) = runCloneOps (applyCloneOp r h op) r t from rfl,
      ih (applyCloneOp r h op), applyCloneOp_store_ne r h op s hne]

/-- C6: `_find_m_min` has no effect on the caller's live state: the caller
object (parameters included) is returned unchanged, the working copy is a
deep copy at a fresh heap reference distinct from the caller's, and after
arbitrary exploratory updates and reads on the clone the caller's cache
region equals its initial contents with at most the consistent fills of
`power` and `hod` (the two properties `_find_m_min` itself reads on
`self`) — every previously cached quantity is untouched. -/
theorem find_m_min_state_frame {P : Type u} {V : Type v} (h : Heap V) (self : Obj P V)
    (powerVal hodVal : V) (ops1 ops2 : List (CloneOp V))
    (hwf : self.cacheRef < h.next) :
    (find_m_min_state h self powerVal hodVal ops1 ops2).2 = self ∧
    (deepcopy (accessProp h self.cacheRef "power" powerVal) self).2.cacheRef ≠ self.cacheRef ∧
    (find_m_min_state h self powerVal hodVal ops1 ops2).1.store self.cacheRef
      = cacheFill "hod" hodVal (cacheFill "power" powerVal (h.store self.cacheRef)) := by
  have hne : self.cacheRef ≠ h.next := Nat.ne_of_lt hwf
  refine ⟨rfl, ?_, ?_⟩
  · exact fun heq => hne (heq ▸ rfl)
  · show (runCloneOps (accessProp
        (runCloneOps (deepcopy (accessProp h self.cacheRef "power" powerVal) self).1
          (deepcopy (accessProp h self.cacheRef "power" powerVal) self).2.cacheRef ops1)
        self.cacheRef "hod" hodVal)
        (deepcopy (accessProp h self.cacheRef "power" powerVal) self).2.cacheRef
        ops2).store self.cacheRef
      = cacheFill "hod" hodVal (cacheFill "power" powerVal (h.store self.cacheRef))
    have hcr : (deepcopy (accessProp h self.cacheRef "power" powerVal) self).2.cacheRef
        = h.next := rfl
    rw [hcr, runCloneOps_store_ne ops2 _ _ hne, accessProp_store_self,
      runCloneOps_store_ne ops1 _ _ hne]
    have hdc : (deepcopy (accessProp h self.cacheRef "power" powerVal) self).1.store
        self.cacheRef
        = (accessProp h self.cacheRef "power" powerVal).store self.cacheRef := by
      simp [deepcopy, accessProp, heapWrite, hne]
    rw [hdc, accessProp_store_self]

/-- Witness for C6 on a concrete one-object heap with an empty cache. -/
theorem find_m_min_state_frame_witness :
    (find_m_min_state (⟨fun _ => [], 1⟩ : Heap ℕ) (⟨0, 0⟩ : Obj ℕ ℕ) 5 7
        [CloneOp.update ["M"], CloneOp.access "M" 3] [CloneOp.access "dndm" 4]).2
      = (⟨0, 0⟩ : Obj ℕ ℕ) ∧
    (deepcopy (accessProp (⟨fun _ => [], 1⟩ : Heap ℕ) 0 "power" 5)
        (⟨0, 0⟩ : Obj ℕ ℕ)).2.cacheRef ≠ 0 ∧
    (find_m_min_state (⟨fun _ => [], 1⟩ : Heap ℕ) (⟨0, 0⟩ : Obj ℕ ℕ) 5 7
        [CloneOp.update ["M"], CloneOp.access "M" 3] [CloneOp.access "dndm" 4]).1.store 0
      = cacheFill "hod" 7 (cacheFill "power" 5 []) :=
  find_m_min_state_frame ⟨fun _ => [], 1⟩ ⟨0, 0⟩ 5 7
    [CloneOp.update ["M"], CloneOp.access "M" 3] [CloneOp.access "dndm" 4] (by decide)
